import Mathlib

/-!
Shallow embedding of the persistence and valuation layers of the Stock
portfolio-tracking application (`src/db/db.py` and
`src/AccountPages/Positions.py`).

Modelling conventions:
* A SQLite table is a list of row records; `REAL` columns are embedded as `ℚ`.
* A Python function that can raise an uncaught exception is embedded as a
  function into `Except PyError _`; `Except.error` means the call raises
  (crashes), `Except.ok` means it returns normally.
* Python's `None` return value is `Option.none`; a function that returns
  either `False` or falls off the end (returning `None`) has result type
  `Option Bool`.
* `bcrypt.hashpw` is an external collaborator and is passed in as an
  abstract hash function.
-/

namespace Stock

/-- An uncaught Python exception propagating out of a data-access call. -/
inductive PyError where
  /-- Raised as `sqlite3.ProgrammingError`, e.g. wrong number of parameter
  bindings. -/
  | programmingError
  /-- Raised as `sqlite3.OperationalError`, e.g. a statement that references
  an undefined column or alias. -/
  | operationalError
  /-- Raised as `TypeError`, e.g. subscripting the `None` returned by
  `fetchone()` on an empty result. -/
  | typeError
deriving Repr, DecidableEq

/-- A row of the `users` table (`create_schema` in `src/db/db.py`):
unique username, password hash, optional email, `REAL` balance. The
`id` and `creation_date` columns play no role in any claim and are
omitted from the embedding. -/
structure UserRow where
  username : String
  password : String
  email : Option String
  balance : ℚ
deriving Repr, DecidableEq

/-- The first row of `SELECT ... FROM users WHERE username = ?`
(`cursor.fetchone()`): scan the table in order for the first row whose
`username` column equals the parameter. -/
def findUser : List UserRow → String → Option UserRow
  | [], _ => none
  | r :: rest, u => if r.username = u then some r else findUser rest u

/-- `UPDATE users SET balance = ? WHERE username = ?`: set the balance
column of every row whose username matches (the schema's UNIQUE
constraint makes at most one row match in a well-formed store). -/
def updateBalance (users : List UserRow) (u : String) (b : ℚ) : List UserRow :=
  users.map (fun r => if r.username = u then { r with balance := b } else r)

/-- `Database.get_balance` (`src/db/db.py` lines 144-150): runs
`SELECT balance FROM users WHERE username = ?` and evaluates
`cursor.fetchone()[0]` without guarding the empty result: when no row
matches, `fetchone()` is `None` and the subscript raises `TypeError`. -/
def get_balance (users : List UserRow) (u : String) : Except PyError ℚ :=
  match findUser users u with
  | none => .error .typeError
  | some r => .ok r.balance

/-- `Database.deposit` (`src/db/db.py` lines 114-121): reads the old
balance via `get_balance`, then updates the row to `old_balance + amount`
and returns `True`. No check is performed on the sign of `amount`. -/
def deposit (users : List UserRow) (u : String) (amount : ℚ) :
    Except PyError (List UserRow × Bool) :=
  match get_balance users u with
  | .error e => .error e
  | .ok old => .ok (updateBalance users u (old + amount), true)

/-- `Database.withdrawal` (`src/db/db.py` lines 123-133): reads the old
balance; if `old_balance - amount < 0` it prints an error and returns
`False`; otherwise it updates the row to `old_balance - amount` and falls
off the end of the function, returning Python's `None` (embedded as
`Option.none`). -/
def withdrawal (users : List UserRow) (u : String) (amount : ℚ) :
    Except PyError (List UserRow × Option Bool) :=
  match get_balance users u with
  | .error e => .error e
  | .ok old =>
    if old - amount < 0 then
      .ok (users, some false)
    else
      .ok (updateBalance users u (old - amount), none)

/-- `Database.create_user` (`src/db/db.py` lines 78-92): hashes the
password with `bcrypt.hashpw` (abstract parameter `hash`), then runs
`INSERT INTO users (username, password, email) VALUES (?, ?, ?)`. The
UNIQUE constraint on `username` makes the insert raise
`sqlite3.IntegrityError` exactly when a row with that username already
exists; the handler catches it and returns `False` with the table
untouched. Otherwise the row is inserted (balance defaults to `0.0`)
and the function returns `True`. -/
def create_user (hash : String → String) (users : List UserRow)
    (u pw : String) (email : Option String) : List UserRow × Bool :=
  match findUser users u with
  | some _ => (users, false)
  | none => (users ++ [⟨u, hash pw, email, 0⟩], true)

/-- Python truthiness of the value `withdrawal` hands back to its caller:
`None` is falsy, a `bool` is its own truth value. -/
def pyTruthy : Option Bool → Bool
  | none => false
  | some b => b

/-- Every balance in the users table is non-negative (the business rule
of spec §3). -/
def allNonneg (users : List UserRow) : Prop := ∀ r ∈ users, 0 ≤ r.balance

/- ### Lookup/update lemmas -/

theorem findUser_updateBalance_self (users : List UserRow) (u : String) (b : ℚ)
    (r : UserRow) (h : findUser users u = some r) :
    findUser (updateBalance users u b) u = some { r with balance := b } := by
  induction users with
  | nil => simp [findUser] at h
  | cons hd tl ih =>
    by_cases hu : hd.username = u
    · simp only [findUser, hu, if_pos rfl] at h
      cases h
      simp [updateBalance, findUser, hu]
    · simp only [findUser, if_neg hu] at h
      simpa [updateBalance, findUser, hu] using ih h

theorem findUser_updateBalance_other (users : List UserRow) (u v : String) (b : ℚ)
    (hvu : v ≠ u) :
    findUser (updateBalance users u b) v = findUser users v := by
  induction users with
  | nil => simp [updateBalance, findUser]
  | cons hd tl ih =>
    by_cases hu : hd.username = u
    · have huv : ¬(u = v) := fun hc => hvu hc.symm
      simp only [updateBalance, List.map_cons, findUser, hu, if_pos rfl, huv,
        if_false, ite_false] at ih ⊢
      simpa [updateBalance, huv] using ih
    · by_cases hv : hd.username = v
      · simp [updateBalance, findUser, hu, hv, hvu]
      · simp only [updateBalance, List.map_cons, findUser, hu, hv, ite_false,
          if_neg hu, if_neg hv] at ih ⊢
        simpa [updateBalance] using ih

theorem mem_updateBalance (users : List UserRow) (u : String) (b : ℚ)
    (r2 : UserRow) (h : r2 ∈ updateBalance users u b) :
    r2.balance = b ∨ r2 ∈ users := by
  rcases List.mem_map.mp h with ⟨r0, hr0, hf⟩
  by_cases hu : r0.username = u
  · left
    rw [← hf]
    simp [hu]
  · right
    rw [← hf]
    simpa [hu] using hr0

theorem findUser_mem (users : List UserRow) (u : String) (r : UserRow)
    (h : findUser users u = some r) : r ∈ users := by
  induction users with
  | nil => simp [findUser] at h
  | cons hd tl ih =>
    by_cases hu : hd.username = u
    · simp only [findUser, if_pos hu] at h
      injection h with h
      rw [← h]
      exact List.mem_cons_self hd tl
    · simp only [findUser, if_neg hu] at h
      exact List.mem_cons_of_mem hd (ih h)

theorem get_balance_ok_inv (users : List UserRow) (u : String) (old : ℚ)
    (h : get_balance users u = .ok old) :
    ∃ r, findUser users u = some r ∧ r.balance = old := by
  unfold get_balance at h
  cases hf : findUser users u with
  | none => rw [hf] at h; exact absurd h (by simp)
  | some r =>
    rw [hf] at h
    refine ⟨r, rfl, ?_⟩
    simpa using h

/-- A one-user sample store used by the witnesses: Alice holds a balance
of 5. -/
def aliceRow : UserRow := ⟨"alice", "h0", none, 5⟩

/-- The sample users table containing only `aliceRow`. -/
def aliceDB : List UserRow := [aliceRow]

/- ### Claim theorems: account/balance operations -/

/-- C2: for a user `u` present in the store with balance `b`,
`withdrawal u a` succeeds (returns normally with no failure value) and
leaves the stored balance at `b - a` if and only if `a ≤ b`; otherwise the
table is unchanged (so the balance remains `b`) and the call reports
failure (`False`) to the caller. -/
theorem C2_withdrawal_spec (users : List UserRow) (u : String) (a : ℚ)
    (r : UserRow) (h : findUser users u = some r) :
    ((∃ users2, withdrawal users u a = .ok (users2, none) ∧
        get_balance users2 u = .ok (r.balance - a)) ↔ a ≤ r.balance)
    ∧ (¬ a ≤ r.balance →
        withdrawal users u a = .ok (users, some false) ∧
        get_balance users u = .ok r.balance) := by
  have hb : get_balance users u = .ok r.balance := by simp [get_balance, h]
  constructor
  · constructor
    · rintro ⟨users2, hw, _⟩
      by_contra hle
      have hlt : r.balance - a < 0 := by
        have := not_le.mp hle
        linarith
      rw [withdrawal, hb] at hw
      simp [hlt] at hw
    · intro hle
      have hnn : ¬ r.balance - a < 0 := by linarith
      refine ⟨updateBalance users u (r.balance - a), ?_, ?_⟩
      · rw [withdrawal, hb]
        simp [hnn]
      · simp [get_balance, findUser_updateBalance_self users u (r.balance - a) r h]
  · intro hle
    have hlt : r.balance - a < 0 := by
      have := not_le.mp hle
      linarith
    refine ⟨?_, hb⟩
    rw [withdrawal, hb]
    simp [hlt]

/-- Witness for C2 at the sample store: Alice has balance 5 and withdraws 3. -/
theorem C2_withdrawal_spec_witness :
    ((∃ users2, withdrawal aliceDB "alice" 3 = .ok (users2, none) ∧
        get_balance users2 "alice" = .ok (aliceRow.balance - 3)) ↔
      (3 : ℚ) ≤ aliceRow.balance)
    ∧ (¬ (3 : ℚ) ≤ aliceRow.balance →
        withdrawal aliceDB "alice" 3 = .ok (aliceDB, some false) ∧
        get_balance aliceDB "alice" = .ok aliceRow.balance) :=
  C2_withdrawal_spec aliceDB "alice" 3 aliceRow (by simp [aliceDB, findUser, aliceRow])

/-- C3 counterexample: the claim quantifies over any amount argument, but
`deposit` performs no sign check, so depositing `-1` into Alice's account
after her balance is set to 0 drives the stored balance to `-1 < 0`. -/
theorem C3_counterexample :
    deposit [⟨"alice", "h0", none, 0⟩] "alice" (-1)
      = .ok ([⟨"alice", "h0", none, -1⟩], true)
    ∧ ¬ allNonneg [⟨"alice", "h0", none, -1⟩] := by
  constructor
  · simp [deposit, get_balance, findUser, updateBalance]
  · intro hball
    have := hball ⟨"alice", "h0", none, -1⟩ (by simp)
    norm_num at this

/-- C3 amended: starting from a store in which every balance is
non-negative, `withdrawal` with any amount keeps every balance
non-negative, and `deposit` keeps every balance non-negative provided the
deposited amount is itself non-negative. -/
theorem C3_amended_nonneg (users : List UserRow) (u : String) (a : ℚ)
    (h : allNonneg users) :
    (∀ users2 res, withdrawal users u a = .ok (users2, res) → allNonneg users2)
    ∧ (0 ≤ a →
        ∀ users2 res, deposit users u a = .ok (users2, res) → allNonneg users2) := by
  constructor
  · intro users2 res hw
    rw [withdrawal] at hw
    cases hga : get_balance users u with
    | error e => rw [hga] at hw; exact absurd hw (by simp)
    | ok old =>
      rw [hga] at hw
      by_cases hlt : old - a < 0
      · simp only [if_pos hlt, Except.ok.injEq, Prod.mk.injEq] at hw
        exact hw.1 ▸ h
      · simp only [if_neg hlt, Except.ok.injEq, Prod.mk.injEq] at hw
        intro r2 hr2
        rw [← hw.1] at hr2
        rcases mem_updateBalance users u (old - a) r2 hr2 with hbal | hmem
        · rw [hbal]
          linarith [not_lt.mp hlt]
        · exact h r2 hmem
  · intro ha users2 res hd
    rw [deposit] at hd
    cases hga : get_balance users u with
    | error e => rw [hga] at hd; exact absurd hd (by simp)
    | ok old =>
      rw [hga] at hd
      simp only [Except.ok.injEq, Prod.mk.injEq] at hd
      obtain ⟨rold, hrold, hbold⟩ := get_balance_ok_inv users u old hga
      have hold : 0 ≤ old := hbold ▸ h rold (findUser_mem users u rold hrold)
      intro r2 hr2
      rw [← hd.1] at hr2
      rcases mem_updateBalance users u (old + a) r2 hr2 with hbal | hmem
      · rw [hbal]
        linarith
      · exact h r2 hmem

/-- Witness for C3 amended at the sample store. -/
theorem C3_amended_nonneg_witness :
    allNonneg aliceDB ∧
    ((∀ users2 res, withdrawal aliceDB "alice" 2 = .ok (users2, res) → allNonneg users2)
      ∧ (0 ≤ (2 : ℚ) →
          ∀ users2 res, deposit aliceDB "alice" 2 = .ok (users2, res) → allNonneg users2)) :=
  ⟨by intro r hr; simp [aliceDB, aliceRow] at hr; simp [hr],
   C3_amended_nonneg aliceDB "alice" 2
     (by intro r hr; simp [aliceDB, aliceRow] at hr; simp [hr])⟩

/-- C5: calling `create_user` with a username already present returns the
failure indicator `False` (the `IntegrityError` is caught, not re-raised)
and leaves the users table — in particular the existing row with its
password hash, email and balance — unchanged. -/
theorem C5_create_user_existing (hash : String → String) (users : List UserRow)
    (u pw : String) (e : Option String) (r : UserRow)
    (h : findUser users u = some r) :
    create_user hash users u pw e = (users, false) := by
  simp [create_user, h]

/-- Witness for C5: re-creating Alice fails and leaves the store unchanged. -/
theorem C5_create_user_existing_witness :
    create_user (fun s => s) aliceDB "alice" "pw2" none = (aliceDB, false) :=
  C5_create_user_existing (fun s => s) aliceDB "alice" "pw2" none aliceRow
    (by simp [aliceDB, findUser, aliceRow])

/-- C6: for a user present in the store and an amount `a ≥ 0`, `deposit`
succeeds (returns `True`), the user's stored balance grows by exactly `a`
with every other field of the row unchanged, and lookups of every other
username are unchanged. -/
theorem C6_deposit_spec (users : List UserRow) (u : String) (a : ℚ)
    (r : UserRow) (h : findUser users u = some r) (_ha : 0 ≤ a) :
    ∃ users2, deposit users u a = .ok (users2, true)
      ∧ findUser users2 u = some { r with balance := r.balance + a }
      ∧ (∀ v, v ≠ u → findUser users2 v = findUser users v)
      ∧ ∀ r2 ∈ users, r2.username ≠ u → r2 ∈ users2 := by
  refine ⟨updateBalance users u (r.balance + a), ?_, ?_, ?_, ?_⟩
  · simp [deposit, get_balance, h]
  · exact findUser_updateBalance_self users u (r.balance + a) r h
  · intro v hv
    exact findUser_updateBalance_other users u v (r.balance + a) hv
  · intro r2 hr2 hne
    exact List.mem_map.mpr ⟨r2, hr2, by simp [hne]⟩

/-- Witness for C6: Alice deposits 7 on a balance of 5. -/
theorem C6_deposit_spec_witness :
    (0 : ℚ) ≤ 7 ∧
    ∃ users2, deposit aliceDB "alice" 7 = .ok (users2, true)
      ∧ findUser users2 "alice" = some { aliceRow with balance := aliceRow.balance + 7 }
      ∧ (∀ v, v ≠ "alice" → findUser users2 v = findUser aliceDB v)
      ∧ ∀ r2 ∈ aliceDB, r2.username ≠ "alice" → r2 ∈ users2 :=
  ⟨by norm_num,
   C6_deposit_spec aliceDB "alice" 7 aliceRow
     (by simp [aliceDB, findUser, aliceRow]) (by norm_num)⟩

/-- C9: for a username with no row in the users table, `get_balance`
raises (the unguarded `fetchone()[0]` subscripts `None`, a `TypeError`
that propagates to the caller) instead of returning an explicit
not-found value. -/
theorem C9_get_balance_crash (users : List UserRow) (u : String)
    (h : findUser users u = none) :
    get_balance users u = .error .typeError := by
  simp [get_balance, h]

/-- Witness for C9: looking up a balance in the empty store crashes. -/
theorem C9_get_balance_crash_witness :
    get_balance [] "bob" = .error .typeError :=
  C9_get_balance_crash [] "bob" rfl

/-- C10: for a user present in the store, `withdrawal` hands back
`False` on the insufficient-funds path and Python `None` on the success
path, so the value the caller receives is falsy in both outcomes and a
truthiness check cannot distinguish success from rejection. -/
theorem C10_withdrawal_falsy (users : List UserRow) (u : String) (a : ℚ)
    (r : UserRow) (h : findUser users u = some r) :
    ∃ users2 res, withdrawal users u a = .ok (users2, res)
      ∧ pyTruthy res = false
      ∧ ((¬ a ≤ r.balance ∧ res = some false) ∨ (a ≤ r.balance ∧ res = none)) := by
  have hb : get_balance users u = .ok r.balance := by simp [get_balance, h]
  by_cases hlt : r.balance - a < 0
  · refine ⟨users, some false, ?_, rfl, .inl ⟨?_, rfl⟩⟩
    · rw [withdrawal, hb]
      simp [hlt]
    · intro hle
      exact absurd hlt (by linarith)
  · refine ⟨updateBalance users u (r.balance - a), none, ?_, rfl,
      .inr ⟨by linarith [not_lt.mp hlt], rfl⟩⟩
    rw [withdrawal, hb]
    simp [hlt]

/-- Witness for C10 at the sample store: Alice withdraws 9 from balance 5
(the rejected branch); the returned value is falsy. -/
theorem C10_withdrawal_falsy_witness :
    ∃ users2 res, withdrawal aliceDB "alice" 9 = .ok (users2, res)
      ∧ pyTruthy res = false
      ∧ ((¬ (9 : ℚ) ≤ aliceRow.balance ∧ res = some false)
          ∨ ((9 : ℚ) ≤ aliceRow.balance ∧ res = none)) :=
  C10_withdrawal_falsy aliceDB "alice" 9 aliceRow (by simp [aliceDB, findUser, aliceRow])

/- ### Schema catalog and `is_init` -/

/-- The four table names `is_init` requires, as listed in its
`WHERE name IN (...)` clause and its final subset check. -/
def requiredTables : List String := ["users", "portfolios", "tickers", "positions"]

/-- `Database.is_init` (`src/db/db.py` lines 66-76): queries
`sqlite_master` for the names of existing tables among the four required
ones (`catalog` is the list of table names in the store's catalog),
returns `False` when that result is empty, and otherwise checks that the
four required names are a subset of the names found. -/
def is_init (catalog : List String) : Bool :=
  let tables := catalog.filter (fun n => requiredTables.contains n)
  if tables.isEmpty then false
  else requiredTables.all (fun n => tables.contains n)

/-- C7: `is_init` returns `true` exactly when all four required tables
(`users`, `portfolios`, `tickers`, `positions`) are present in the
store's catalog; if any one is missing it returns `false`. -/
theorem C7_is_init_iff (catalog : List String) :
    is_init catalog = true ↔
      ("users" ∈ catalog ∧ "portfolios" ∈ catalog ∧
       "tickers" ∈ catalog ∧ "positions" ∈ catalog) := by
  have hmem : ∀ n : String,
      (n ∈ catalog.filter (fun m => requiredTables.contains m)) ↔
        (n ∈ catalog ∧ n ∈ requiredTables) := by
    intro n
    simp [List.mem_filter, List.contains_iff_exists_mem_beq, beq_iff_eq]
  constructor
  · intro h
    rw [is_init] at h
    split at h
    · exact absurd h (by simp)
    · rw [List.all_eq_true] at h
      have get : ∀ n : String, n ∈ requiredTables → n ∈ catalog := by
        intro n hn
        have hin := h n hn
        rw [List.contains_iff_exists_mem_beq] at hin
        obtain ⟨m, hm, hbeq⟩ := hin
        rw [beq_iff_eq] at hbeq
        rw [hbeq]
        exact ((hmem m).mp hm).1
      exact ⟨get "users" (by simp [requiredTables]),
             get "portfolios" (by simp [requiredTables]),
             get "tickers" (by simp [requiredTables]),
             get "positions" (by simp [requiredTables])⟩
  · rintro ⟨h1, h2, h3, h4⟩
    rw [is_init]
    have husers : "users" ∈ catalog.filter (fun m => requiredTables.contains m) :=
      (hmem "users").mpr ⟨h1, by simp [requiredTables]⟩
    split
    · rename_i hempty
      rw [List.isEmpty_iff] at hempty
      rw [hempty] at husers
      exact absurd husers (List.not_mem_nil _)
    · rw [List.all_eq_true]
      intro n hn
      rw [List.contains_iff_exists_mem_beq]
      refine ⟨n, ?_, beq_self_eq_true n⟩
      refine (hmem n).mpr ⟨?_, hn⟩
      simp only [requiredTables, List.mem_cons, List.not_mem_nil, or_false] at hn
      rcases hn with rfl | rfl | rfl | rfl
      · exact h1
      · exact h2
      · exact h3
      · exact h4

/- ### Tickers, positions, `delete_ticker`, `get_portfolio_positions` -/

/-- A row of the `tickers` table: unique `id`, unique symbol, cached
price (`company_name` and `updated_at` play no role in any claim). -/
structure TickerRow where
  id : Nat
  ticker_symbol : String
  current_price : ℚ
deriving Repr, DecidableEq

/-- A row (lot) of the `positions` table: foreign keys to a portfolio and
a ticker, quantity and purchase price (`purchase_date` plays no role in
any claim). -/
structure PositionLot where
  portfolio_id : Nat
  ticker_id : Nat
  quantity : Int
  purchase_price : ℚ
deriving Repr, DecidableEq

/-- `Database.delete_ticker` (`src/db/db.py` lines 199-204): executes
`DELETE FROM tickers WHERE ticker_symbol=?` with parameters `(symbol)` —
a plain parenthesised string, not the one-element tuple `(symbol,)`. The
sqlite3 driver treats a string parameter set as the sequence of its
characters, so the one-placeholder statement receives `symbol.length`
bindings and raises `sqlite3.ProgrammingError` unless the symbol is a
single character. In the single-character case the matching ticker rows
are deleted; the dependent `positions` rows are untouched, because no
connection ever runs `PRAGMA foreign_keys = ON` and sqlite therefore
ignores the schema's `ON DELETE CASCADE` clauses. -/
def delete_ticker (tickers : List TickerRow) (positions : List PositionLot)
    (symbol : String) : Except PyError (List TickerRow × List PositionLot) :=
  if symbol.length = 1 then
    .ok (tickers.filter (fun t => t.ticker_symbol != symbol), positions)
  else
    .error .programmingError

/-- C8: the code contradicts the claim. Deleting the 4-character symbol
`AAPL` raises `ProgrammingError` (4 bindings for 1 placeholder), so the
ticker row survives; and even for a single-character symbol, where the
ticker row is removed, the dependent position row is not cascaded. -/
theorem C8_delete_ticker_bug :
    delete_ticker [⟨1, "AAPL", 100⟩] [⟨1, 1, 10, 50⟩] "AAPL"
        = .error .programmingError
    ∧ delete_ticker [⟨1, "A", 100⟩] [⟨1, 1, 10, 50⟩] "A"
        = .ok ([], [⟨1, 1, 10, 50⟩]) := by
  constructor
  · rfl
  · rfl

/-- Aliases defined in the FROM clause of the `get_portfolio_positions`
statement: `positions p JOIN tickers t`. -/
def gppDefinedAliases : List String := ["p", "t"]

/-- Table aliases referenced by the ON and WHERE clauses of the
`get_portfolio_positions` statement: `pt.ticker_id = t.id` and
`pt.portfolio_id = ?`. -/
def gppReferencedAliases : List String := ["pt", "t", "pt"]

/-- Whether every alias referenced by the statement is defined by its
FROM clause; sqlite refuses to run the statement otherwise, raising
`sqlite3.OperationalError` (no such column). -/
def gppResolves : Bool :=
  gppReferencedAliases.all (fun a => gppDefinedAliases.contains a)

/-- `Database.get_portfolio_positions` (`src/db/db.py` lines 221-230):
runs `SELECT t.ticker_symbol, p.quantity FROM positions p JOIN tickers t
ON pt.ticker_id = t.id WHERE pt.portfolio_id = ?` and returns
`fetchall()` — one `(ticker_symbol, quantity)` tuple per position lot,
with no aggregation and no cost-basis column. Because the ON and WHERE
clauses reference the undefined alias `pt`, executing the statement
raises `sqlite3.OperationalError` before any row is produced; the `.ok`
branch holds the rows the join would produce if the aliases resolved. -/
def get_portfolio_positions (tickers : List TickerRow)
    (positions : List PositionLot) (portfolio_id : Nat) :
    Except PyError (List (String × Int)) :=
  if gppResolves then
    .ok ((positions.filter (fun l => l.portfolio_id == portfolio_id)).filterMap
      (fun l => (tickers.find? (fun t => t.id == l.ticker_id)).map
        (fun t => (t.ticker_symbol, l.quantity))))
  else
    .error .operationalError

/-- C1: the code contradicts the claim. The position query of the data
layer never returns a mapping at all: for every store and portfolio id it
raises `OperationalError` (the statement references the undefined alias
`pt`); moreover its SELECT list carries no cost-basis column and no
aggregation, and the `get_all_positions` method the GUI calls does not
exist on `Database`. -/
theorem C1_get_positions_bug (tickers : List TickerRow)
    (positions : List PositionLot) (portfolio_id : Nat) :
    get_portfolio_positions tickers positions portfolio_id
      = .error .operationalError := rfl

/- ### Valuation layer (`PositionsPage.make_ui`) -/

/-- One aggregated position handed to the valuation loop of `make_ui`
(`src/AccountPages/Positions.py` lines 33-37): ticker symbol, quantity
and cost basis. -/
structure PositionEntry where
  tic : String
  quantity : ℚ
  cost_basis : ℚ
deriving Repr, DecidableEq

/-- One row of the positions table built by `PositionsPage.make_ui`
(`src/AccountPages/Positions.py` lines 49-66). -/
structure ValuedRow where
  tic : String
  quantity : ℚ
  avg_price : ℚ
  cost_basis : ℚ
  cur_price : ℚ
  cur_value : ℚ
  cur_profit : ℚ
deriving Repr, DecidableEq

/-- The per-row arithmetic of `make_ui`:
`avg_price = cost_basis / quantity`, `cur_value = quantity * cur_price`,
`cur_profit = quantity * cur_price - quantity * avg_price`; `price` is
the `db.get_ticker_price` lookup. -/
def valueRow (price : String → ℚ) (p : PositionEntry) : ValuedRow :=
  ⟨p.tic, p.quantity, p.cost_basis / p.quantity, p.cost_basis, price p.tic,
    p.quantity * price p.tic,
    p.quantity * price p.tic - p.quantity * (p.cost_basis / p.quantity)⟩

/-- One iteration of the totals accumulation in `make_ui`:
`total_cost_basis += cost_basis`, `total_value += cur_value`,
`total_profit += cur_profit`. -/
def totalsStep (price : String → ℚ) (acc : ℚ × ℚ × ℚ) (p : PositionEntry) :
    ℚ × ℚ × ℚ :=
  (acc.1 + (valueRow price p).cost_basis,
   acc.2.1 + (valueRow price p).cur_value,
   acc.2.2 + (valueRow price p).cur_profit)

/-- The totals row of `make_ui`: fold the accumulation over all position
rows starting from `(0, 0, 0)`, yielding
`(total_cost_basis, total_value, total_profit)`. -/
def makeUITotals (price : String → ℚ) (rows : List PositionEntry) : ℚ × ℚ × ℚ :=
  rows.foldl (totalsStep price) (0, 0, 0)

theorem foldl_totalsStep (price : String → ℚ) (rows : List PositionEntry)
    (acc : ℚ × ℚ × ℚ) :
    rows.foldl (totalsStep price) acc
      = (acc.1 + (rows.map (fun r => (valueRow price r).cost_basis)).sum,
         acc.2.1 + (rows.map (fun r => (valueRow price r).cur_value)).sum,
         acc.2.2 + (rows.map (fun r => (valueRow price r).cur_profit)).sum) := by
  induction rows generalizing acc with
  | nil => simp
  | cons hd tl ih =>
    simp only [List.foldl_cons, List.map_cons, List.sum_cons]
    rw [ih]
    simp only [totalsStep, Prod.mk.injEq]
    refine ⟨by ring, by ring, by ring⟩

/-- C4: for every valuation row with positive quantity, the computed
current value minus the computed profit/loss equals its cost basis
(exactly, in the rational model of the arithmetic); and the displayed
totals are the sums of the per-row cost bases, current values and
profits. -/
theorem C4_valuation (price : String → ℚ) (p : PositionEntry)
    (rows : List PositionEntry) (hq : 0 < p.quantity) :
    (valueRow price p).cur_value - (valueRow price p).cur_profit = p.cost_basis
    ∧ makeUITotals price rows
        = ((rows.map (fun r => (valueRow price r).cost_basis)).sum,
           (rows.map (fun r => (valueRow price r).cur_value)).sum,
           (rows.map (fun r => (valueRow price r).cur_profit)).sum) := by
  constructor
  · have hq0 : p.quantity ≠ 0 := ne_of_gt hq
    simp only [valueRow]
    field_simp
  · rw [makeUITotals, foldl_totalsStep]
    simp

/-- Witness for C4: 10 shares of XYZ bought for 500 total, current price
60; the row values 600 with profit 100, and the totals match. -/
theorem C4_valuation_witness :
    (0 : ℚ) < (⟨"XYZ", 10, 500⟩ : PositionEntry).quantity ∧
    ((valueRow (fun _ => 60) ⟨"XYZ", 10, 500⟩).cur_value
        - (valueRow (fun _ => 60) ⟨"XYZ", 10, 500⟩).cur_profit
        = (⟨"XYZ", 10, 500⟩ : PositionEntry).cost_basis
      ∧ makeUITotals (fun _ => 60) [⟨"XYZ", 10, 500⟩]
          = ((([⟨"XYZ", 10, 500⟩] : List PositionEntry).map
                (fun r => (valueRow (fun _ => 60) r).cost_basis)).sum,
             (([⟨"XYZ", 10, 500⟩] : List PositionEntry).map
                (fun r => (valueRow (fun _ => 60) r).cur_value)).sum,
             (([⟨"XYZ", 10, 500⟩] : List PositionEntry).map
                (fun r => (valueRow (fun _ => 60) r).cur_profit)).sum)) :=
  ⟨by norm_num,
   C4_valuation (fun _ => 60) ⟨"XYZ", 10, 500⟩ [⟨"XYZ", 10, 500⟩] (by norm_num)⟩

end Stock
